import Mathlib

/-!
Verification of `src/gpodder/gtkui/model.py` (gPodder GTK UI model classes).

The development shallowly embeds the model classes of that file:
`BackgroundUpdate` (the time-sliced incremental updater),
`EpisodeListModel` (row store, view-mode/search filtering, background
population) and `PodcastListModel` (filtering, cover thumbnail cache).

Wall-clock time is embedded as an oracle `elapsed : Nat → Bool`, where
`elapsed k` is the value of the check `(time.time() - started) > 0.02`
when it is evaluated after the k-th episode processed in the current
slice.  The GLib idle-source machinery (`GObject.idle_add`,
`GObject.source_remove`, and the automatic removal of a source whose
callback returns False) is embedded as an explicit list of active tags.
-/

namespace Gpodder

/-- State constants of the `gpodder` package (gpodder/__init__.py). -/
def STATE_NORMAL : Nat := 0

/-- Episode state: downloaded. -/
def STATE_DOWNLOADED : Nat := 1

/-- Episode state: deleted. -/
def STATE_DELETED : Nat := 2

/-- Constant `EpisodeListModel.PROGRESS_STEPS`: steps for the downloading icon progress. -/
def PROGRESS_STEPS : Nat := 20

/-- View mode `VIEW_ALL` of `EpisodeListModel`. -/
def VIEW_ALL : Nat := 0

/-- View mode `VIEW_UNDELETED`. -/
def VIEW_UNDELETED : Nat := 1

/-- View mode `VIEW_DOWNLOADED`. -/
def VIEW_DOWNLOADED : Nat := 2

/-- View mode `VIEW_UNPLAYED`. -/
def VIEW_UNPLAYED : Nat := 3

namespace Msg

/-- Empty string. -/
def empty : String := ""

/-- Single space. -/
def space : String := " "

/-- Newline. -/
def newline : String := "\n"

/-- Separator used by the tooltip join. -/
def commaSpace : String := ", "

/-- Percent sign. -/
def percent : String := "%"

/-- Ampersand. -/
def amp : String := "&"

/-- Ampersand entity. -/
def ampEnt : String := "&amp;"

/-- Less-than sign. -/
def lt : String := "<"

/-- Less-than entity. -/
def ltEnt : String := "&lt;"

/-- Greater-than sign. -/
def gt : String := ">"

/-- Greater-than entity. -/
def gtEnt : String := "&gt;"

/-- Double quote. -/
def quot : String := "\x22"

/-- Double-quote entity. -/
def quotEnt : String := "&quot;"

/-- Single quote. -/
def apos : String := "\x27"

/-- Single-quote entity. -/
def aposEnt : String := "&#x27;"

/-- Bold markup, opening. -/
def bOpen : String := "<b>"

/-- Bold markup, closing. -/
def bClose : String := "</b>"

/-- Translation of the format string `from %s` with the substitution point removed. -/
def fromLbl : String := "from "

/-- Tooltip text `Downloading`. -/
def downloading : String := "Downloading"

/-- Tooltip text `Deleted`. -/
def deleted : String := "Deleted"

/-- Tooltip text `New episode`. -/
def newEpisode : String := "New episode"

/-- Tooltip text `Downloaded episode`. -/
def downloadedEpisode : String := "Downloaded episode"

/-- Tooltip text `Downloaded video episode`. -/
def downloadedVideo : String := "Downloaded video episode"

/-- Tooltip text `Downloaded image`. -/
def downloadedImage : String := "Downloaded image"

/-- Tooltip text `Downloaded file`. -/
def downloadedFile : String := "Downloaded file"

/-- Tooltip text `missing file`. -/
def missingFile : String := "missing file"

/-- Tooltip text `never displayed`. -/
def neverDisplayed : String := "never displayed"

/-- Tooltip text `never played`. -/
def neverPlayed : String := "never played"

/-- Tooltip text `never opened`. -/
def neverOpened : String := "never opened"

/-- Tooltip text `displayed`. -/
def displayed : String := "displayed"

/-- Tooltip text `played`. -/
def played : String := "played"

/-- Tooltip text `opened`. -/
def opened : String := "opened"

/-- Tooltip text `deletion prevented`. -/
def deletionPrevented : String := "deletion prevented"

/-- File type string `audio`. -/
def audio : String := "audio"

/-- File type string `video`. -/
def video : String := "video"

/-- File type string `image`. -/
def image : String := "image"

/-- Icon name `audio-x-generic` (`ICON_AUDIO_FILE`). -/
def iconAudio : String := "audio-x-generic"

/-- Icon name `video-x-generic` (`ICON_VIDEO_FILE`). -/
def iconVideo : String := "video-x-generic"

/-- Icon name `image-x-generic` (`ICON_IMAGE_FILE`). -/
def iconImage : String := "image-x-generic"

/-- Icon name `text-x-generic` (`ICON_GENERIC_FILE`). -/
def iconGeneric : String := "text-x-generic"

/-- Stem of the progress icon names `gpodder-progress-%d`. -/
def progressIconStem : String := "gpodder-progress-"

end Msg

/-- Python `html.escape` with its default `quote=True`, in CPython's
replacement order. -/
def htmlEscape (s : String) : String :=
  let s := s.replace Msg.amp Msg.ampEnt
  let s := s.replace Msg.lt Msg.ltEnt
  let s := s.replace Msg.gt Msg.gtEnt
  let s := s.replace Msg.quot Msg.quotEnt
  s.replace Msg.apos Msg.aposEnt

/-- Modelled from the spec: the entity provider interface (domain episode
objects of `gpodder.model`, which is not part of this file).  A field per
read-only attribute or method result that `gpodder.gtkui.model` consumes.
`themed_icon` is the result of the Gio themed-icon lookup for the episode's
downloaded file (`none` when Gio is unavailable, on win32, when there is no
local file, or when no themed icon matches); `download_progress` is
`download_task.progress`. -/
structure Episode where
  url : String
  title : String
  trimmed_title : String
  channel_title : String
  published : Int
  cute_pubdate : String
  state : Nat
  is_new : Bool
  archive : Bool
  downloading : Bool
  download_progress : ℚ
  total_time : Nat
  current_position : Nat
  file_size : Int
  file_exists : Bool
  file_type : String
  themed_icon : Option String
  play_info_string : String
  one_line_description : String
deriving DecidableEq

/-- One row of `EpisodeListModel`, a `Gtk.ListStore` with 17 typed columns
(`C_URL` .. `C_LOCKED`).  `str` columns are nullable, hence `Option String`;
`bool` columns default to `False`; int64 columns default to `0`. -/
structure Row where
  c_url : Option String
  c_title : Option String
  c_filesize_text : Option String
  c_episode : Option Episode
  c_status_icon : Option String
  c_published_text : Option String
  c_description : Option String
  c_tooltip : Option String
  c_view_show_undeleted : Bool
  c_view_show_downloaded : Bool
  c_view_show_unplayed : Bool
  c_filesize : Int
  c_published : Int
  c_time : Option String
  c_time_visible : Bool
  c_total_time : Nat
  c_locked : Bool
deriving DecidableEq

/-- The row produced by a bare `self.append()` in `replace_from_channel`:
every column holds the GTK default value for its type. -/
def defaultRow : Row :=
  { c_url := none, c_title := none, c_filesize_text := none, c_episode := none,
    c_status_icon := none, c_published_text := none, c_description := none,
    c_tooltip := none, c_view_show_undeleted := false,
    c_view_show_downloaded := false, c_view_show_unplayed := false,
    c_filesize := 0, c_published := 0, c_time := none, c_time_visible := false,
    c_total_time := 0, c_locked := false }

/-- Per-model configuration read by `get_update_fields` and
`_format_description`: the `_all_episodes_view` flag and the environment
dependent `ICON_DELETED` constant (`Gtk.STOCK_DELETE`, or `archive-remove`
under a KDE session). -/
structure ModelCfg where
  all_episodes_view : Bool
  icon_deleted : String

/-- Modelled from the spec: `util.format_time` (module `gpodder.util`, not
part of this file) is an external display-formatting helper; its exact text
is presentation-only, so it is modelled as a plain numeral rendering. -/
def formatTime (n : Nat) : String := toString n

/-- Modelled from the spec: `util.format_filesize` (module `gpodder.util`,
not part of this file) is an external display-formatting helper, modelled
as a plain numeral rendering. -/
def formatFilesize (n : Int) : String := toString n

/-- Source method `EpisodeListModel._format_filesize`. -/
def format_filesize_column (episode : Episode) : Option String :=
  if episode.file_size > 0 then some (formatFilesize episode.file_size) else none

/-- Source method `EpisodeListModel._format_description` (joined to a single string, as
its generator output is consumed by a `''.join`). -/
def format_description (all_episodes_view : Bool) (episode : Episode)
    (include_description : Bool) : String :=
  let title := episode.trimmed_title
  let head :=
    if episode.state ≠ STATE_DELETED ∧ episode.is_new then
      Msg.bOpen ++ htmlEscape title ++ Msg.bClose
    else
      htmlEscape title
  if include_description then
    head ++ Msg.newline ++
      (if all_episodes_view then
        Msg.fromLbl ++ htmlEscape episode.channel_title
      else
        let description := episode.one_line_description
        let description :=
          if description.startsWith title then
            (description.drop title.length).trim
          else description
        htmlEscape description)
  else
    head

/-- The values of the local variables `status_icon`, `view_show_undeleted`,
`view_show_downloaded`, `view_show_unplayed` and the `tooltip` list after
the `if episode.downloading: ... else: ...` branch of `get_update_fields`,
with their initial values as defaults. -/
structure UFAcc where
  status_icon : Option String := none
  view_show_undeleted : Bool := true
  view_show_downloaded : Bool := false
  view_show_unplayed : Bool := false
  tooltip : List String := []

/-- The `elif episode.state == gpodder.STATE_DOWNLOADED` branch of
`get_update_fields`. -/
def downloadedBranch (episode : Episode) : UFAcc :=
  let show_bullet := episode.is_new
  let show_padlock := episode.archive
  let show_missing := !episode.file_exists
  let ft := episode.file_type
  let pair : List String × String :=
    if ft = Msg.audio then ([Msg.downloadedEpisode], Msg.iconAudio)
    else if ft = Msg.video then ([Msg.downloadedVideo], Msg.iconVideo)
    else if ft = Msg.image then ([Msg.downloadedImage], Msg.iconImage)
    else ([Msg.downloadedFile], Msg.iconGeneric)
  let status_icon :=
    match episode.themed_icon with
    | some icon => icon
    | none => pair.2
  let tip := pair.1 ++
    (if show_missing then [Msg.missingFile]
     else
       (if show_bullet then
          if ft = Msg.image then [Msg.neverDisplayed]
          else if ft = Msg.audio ∨ ft = Msg.video then [Msg.neverPlayed]
          else [Msg.neverOpened]
        else
          if ft = Msg.image then [Msg.displayed]
          else if ft = Msg.audio ∨ ft = Msg.video then [Msg.played]
          else [Msg.opened]) ++
       (if show_padlock then [Msg.deletionPrevented] else []))
  let tip := tip ++
    (if episode.total_time > 0 ∧ episode.current_position ≠ 0 then
      [toString ((100 * episode.current_position) / episode.total_time) ++ Msg.percent]
     else [])
  { status_icon := some status_icon, view_show_downloaded := true,
    view_show_unplayed := episode.is_new, tooltip := tip }

/-- The downloading / deleted / new / downloaded branch structure of
`get_update_fields`. -/
def ufBranch (cfg : ModelCfg) (episode : Episode) : UFAcc :=
  if episode.downloading then
    { status_icon := some (Msg.progressIconStem ++
        toString ⌊(PROGRESS_STEPS : ℚ) * episode.download_progress⌋),
      view_show_downloaded := true, view_show_unplayed := true,
      tooltip := [Msg.downloading ++ Msg.space ++
        toString ⌊episode.download_progress * (100 : ℚ)⌋ ++ Msg.percent] }
  else if episode.state = STATE_DELETED then
    { status_icon := some cfg.icon_deleted, view_show_undeleted := false,
      tooltip := [Msg.deleted] }
  else if episode.state = STATE_NORMAL ∧ episode.is_new then
    { view_show_downloaded := true, view_show_unplayed := true,
      tooltip := [Msg.newEpisode] }
  else if episode.state = STATE_DOWNLOADED then
    downloadedBranch episode
  else
    {}

/-- The tuple of column/value pairs returned by
`EpisodeListModel.get_update_fields`, one field per written column. -/
structure UpdateFields where
  status_icon : Option String
  view_show_undeleted : Bool
  view_show_downloaded : Bool
  view_show_unplayed : Bool
  description : String
  tooltip : String
  time : String
  time_visible : Bool
  total_time : Nat
  locked : Bool
  filesize_text : Option String
  filesize : Int
deriving DecidableEq

/-- Source method `EpisodeListModel.get_update_fields`. -/
def get_update_fields (cfg : ModelCfg) (episode : Episode)
    (include_description : Bool) : UpdateFields :=
  let acc := ufBranch cfg episode
  let tooltip := acc.tooltip ++
    (if episode.total_time ≠ 0 then
      (if formatTime episode.total_time ≠ Msg.empty then
        [formatTime episode.total_time] else [])
     else [])
  { status_icon := acc.status_icon,
    view_show_undeleted := acc.view_show_undeleted,
    view_show_downloaded := acc.view_show_downloaded,
    view_show_unplayed := acc.view_show_unplayed,
    description := format_description cfg.all_episodes_view episode include_description,
    tooltip := String.intercalate Msg.commaSpace tooltip,
    time := episode.play_info_string,
    time_visible := episode.total_time ≠ 0,
    total_time := episode.total_time,
    locked := episode.archive,
    filesize_text := format_filesize_column episode,
    filesize := episode.file_size }

/-- The row written by one iteration of `BackgroundUpdate.update`: the five
`base_fields` together with the twelve fields of `get_update_fields` cover
all 17 columns, so the written row does not depend on the previous row. -/
def mkRow (cfg : ModelCfg) (episode : Episode) (include_description : Bool) : Row :=
  let u := get_update_fields cfg episode include_description
  { c_url := some episode.url,
    c_title := some episode.title,
    c_episode := some episode,
    c_published_text := some episode.cute_pubdate,
    c_published := episode.published,
    c_status_icon := u.status_icon,
    c_view_show_undeleted := u.view_show_undeleted,
    c_view_show_downloaded := u.view_show_downloaded,
    c_view_show_unplayed := u.view_show_unplayed,
    c_description := some u.description,
    c_tooltip := some u.tooltip,
    c_time := some u.time,
    c_time_visible := u.time_visible,
    c_total_time := u.total_time,
    c_locked := u.locked,
    c_filesize_text := u.filesize_text,
    c_filesize := u.filesize }

/-- Constructor state of `BackgroundUpdate.__init__`: the pending queue, the include-description
flag, and the number of rows written so far (`self.index`).  The `model`
reference is passed explicitly to `update` instead. -/
structure BackgroundUpdate where
  episodes : List Episode
  include_description : Bool
  index : Nat

/-- The `while self.episodes:` loop of `BackgroundUpdate.update`.  `index`
is the running `self.index`, `k` counts episodes processed in this slice
(so `elapsed k` is the time check made after the k-th episode), and `rows`
is the backing list store.  Each iteration pops the queue head, writes all
17 columns of the row at `index` and increments `index`; when
`self.index % 50 == 0` the 20 ms check runs and on success the loop
breaks. -/
def updateLoop (cfg : ModelCfg) (include_description : Bool)
    (elapsed : Nat → Bool) :
    List Episode → Nat → Nat → List Row → List Episode × Nat × List Row
  | [], index, _, rows => ([], index, rows)
  | episode :: rest, index, k, rows =>
    let rows' := rows.set index (mkRow cfg episode include_description)
    if (index + 1) % 50 == 0 && elapsed (k + 1) then
      (rest, index + 1, rows')
    else
      updateLoop cfg include_description elapsed rest (index + 1) (k + 1) rows'

/-- Source method `BackgroundUpdate.update`: runs the slice loop and returns the new
updater state, the mutated row store, and `bool(self.episodes)`. -/
def BackgroundUpdate.update (cfg : ModelCfg) (elapsed : Nat → Bool)
    (bg : BackgroundUpdate) (rows : List Row) :
    BackgroundUpdate × List Row × Bool :=
  let out := updateLoop cfg bg.include_description elapsed bg.episodes bg.index 0 rows
  (⟨out.1, bg.include_description, out.2.1⟩, out.2.2, !out.1.isEmpty)

/-- Number of episodes one call of the slice loop processes, given the
queue, the starting `self.index` and the count already processed in this
slice. -/
def processedCount (elapsed : Nat → Bool) : List Episode → Nat → Nat → Nat
  | [], _, _ => 0
  | _ :: rest, index, k =>
    if (index + 1) % 50 == 0 && elapsed (k + 1) then 1
    else 1 + processedCount elapsed rest (index + 1) (k + 1)

/-- Straight-line full processing of a queue: writes `mkRow` of each
episode at consecutive indices.  A completed background update (all slices
until `update` returns False) leaves the store in this state. -/
def writeEpisodeRows (cfg : ModelCfg) (include_description : Bool) :
    List Episode → Nat → List Row → List Row
  | [], _, rows => rows
  | episode :: rest, index, rows =>
    writeEpisodeRows cfg include_description rest (index + 1)
      (rows.set index (mkRow cfg episode include_description))

/-- State of an `EpisodeListModel`: the list store rows, the filter state,
the `_all_episodes_view` flag, the background update bookkeeping, and an
embedding of the GLib idle-source registry (`scheduled` holds the active
source tags for this model, `next_tag` the next fresh tag).
`search_eql` models the stored `_search_term_eql` matcher:
`search_eql e = some b` means `match(e)` returns `b`, `none` means the
evaluation raises. -/
structure EpisodeListModel where
  rows : List Row
  view_mode : Nat
  search_term : Option String
  search_eql : Episode → Option Bool
  all_episodes_view : Bool
  icon_deleted : String
  background_update : Option BackgroundUpdate
  background_update_tag : Option Nat
  scheduled : List Nat
  next_tag : Nat

/-- The `ModelCfg` read from an `EpisodeListModel` by `get_update_fields`
and `_format_description`. -/
def cfgOf (m : EpisodeListModel) : ModelCfg :=
  ⟨m.all_episodes_view, m.icon_deleted⟩

/-- Source method `EpisodeListModel._filter_visible_func` as a pure function of the model
state and the row under test. -/
def filter_visible_func (m : EpisodeListModel) (r : Row) : Bool :=
  match m.search_term with
  | some _ =>
    match r.c_episode with
    | none => false
    | some episode =>
      match m.search_eql episode with
      | some b => b
      | none => true
  | none =>
    if m.view_mode = VIEW_ALL then true
    else if m.view_mode = VIEW_UNDELETED then r.c_view_show_undeleted
    else if m.view_mode = VIEW_DOWNLOADED then r.c_view_show_downloaded
    else if m.view_mode = VIEW_UNPLAYED then r.c_view_show_unplayed
    else true

/-- The boolean view-eligibility flag of a row for a given view mode
(`true` for `VIEW_ALL` and for out-of-range modes, matching the filter's
fall-through). -/
def viewFlag (mode : Nat) (r : Row) : Bool :=
  if mode = VIEW_ALL then true
  else if mode = VIEW_UNDELETED then r.c_view_show_undeleted
  else if mode = VIEW_DOWNLOADED then r.c_view_show_downloaded
  else if mode = VIEW_UNPLAYED then r.c_view_show_unplayed
  else true

/-- Source method `EpisodeListModel.set_search_term`.  `userEQL` models the external
`query.UserEQL` constructor: for a term it yields the matcher stored in
`_search_term_eql` (the `_on_filter_changed` notification and the GTK
refilter have no model state). -/
def set_search_term (userEQL : Option String → Episode → Option Bool)
    (new_term : Option String) (m : EpisodeListModel) : EpisodeListModel :=
  if m.search_term ≠ new_term then
    { m with search_term := new_term, search_eql := userEQL new_term }
  else m

/-- Source method `EpisodeListModel._update_from_episodes`: deregister a pending idle
source, install a fresh `BackgroundUpdate`, and schedule a fresh idle
source for `_update_background`. -/
def update_from_episodes (episodes : List Episode)
    (include_description : Bool) (m : EpisodeListModel) : EpisodeListModel :=
  let m :=
    match m.background_update_tag with
    | some t => { m with scheduled := m.scheduled.erase t }
    | none => m
  { m with
    background_update := some ⟨episodes, include_description, 0⟩,
    background_update_tag := some m.next_tag,
    scheduled := m.scheduled ++ [m.next_tag],
    next_tag := m.next_tag + 1 }

/-- Source method `EpisodeListModel._update_background`, one idle-callback invocation.
Returning `false` makes GLib remove the idle source, embedded here by
erasing the tag from `scheduled`. -/
def update_background (elapsed : Nat → Bool) (m : EpisodeListModel) :
    EpisodeListModel × Bool :=
  match m.background_update with
  | some bg =>
    let out := BackgroundUpdate.update (cfgOf m) elapsed bg m.rows
    if out.2.2 then
      ({ m with rows := out.2.1, background_update := some out.1 }, true)
    else
      let m' := { m with
        rows := out.2.1,
        background_update := (none : Option BackgroundUpdate),
        background_update_tag := (none : Option Nat),
        scheduled :=
          (match m.background_update_tag with
           | some t => m.scheduled.erase t
           | none => m.scheduled) }
      (m', false)
  | none => (m, false)

/-- The idle-loop driver: invoke `_update_background` repeatedly (slice
`s` uses the clock oracle `oracle s`) until it returns `false` or `fuel`
slices have run. -/
def runBackground (oracle : Nat → Nat → Bool) :
    Nat → Nat → EpisodeListModel → EpisodeListModel
  | _, 0, m => m
  | s, fuel + 1, m =>
    let out := update_background (oracle s) m
    if out.2 then runBackground oracle (s + 1) fuel out.1 else out.1

/-- Modelled from the spec: a domain podcast channel (entity provider,
`gpodder.model`, not part of this file), reduced to what
`replace_from_channel` consumes: its episode list (already a list, since
the source copies the generator with `list(...)`) and the
`ALL_EPISODES_PROXY` marker attribute read via `getattr`. -/
structure Channel where
  episodes : List Episode
  all_episodes_proxy : Bool

/-- Source method `EpisodeListModel.replace_from_channel`: clear, set
`_all_episodes_view`, append one default row per episode, then hand the
episode list to `_update_from_episodes`. -/
def replace_from_channel (channel : Option Channel)
    (include_description : Bool) (m : EpisodeListModel) : EpisodeListModel :=
  let m := { m with rows := [] }
  let m := { m with all_episodes_view :=
    match channel with
    | some c => c.all_episodes_proxy
    | none => false }
  let episodes :=
    match channel with
    | none => []
    | some c => c.episodes
  let m := { m with rows := List.replicate episodes.length defaultRow }
  update_from_episodes episodes include_description m

/-- Source method `EpisodeListModel.update_all`.  Collecting `row[C_EPISODE]` over rows
is `mapM c_episode`; a row without a backing episode would make the
rebuilt queue crash the updater in Python, embedded here as `none`. -/
def update_all (include_description : Bool) (m : EpisodeListModel) :
    Option EpisodeListModel :=
  match m.background_update with
  | none =>
    (m.rows.mapM Row.c_episode).map
      (fun episodes => update_from_episodes episodes include_description m)
  | some bg =>
    ((m.rows.take bg.index).mapM Row.c_episode).map
      (fun processed =>
        update_from_episodes (processed ++ bg.episodes) include_description m)

/-- A GdkPixbuf image handle.  Object identity is embedded by value: two
handles are the same instance when their dimensions and content tag agree.
`scale_simple` produces a scaled handle with the same content. -/
structure Pixbuf where
  width : Nat
  height : Nat
  content : Nat
deriving DecidableEq

/-- External `GdkPixbuf.Pixbuf.scale_simple` (bilinear scaling; the interpolation
mode has no observable effect in this embedding). -/
def Pixbuf.scale_simple (p : Pixbuf) (w h : Nat) : Pixbuf :=
  { width := w, height := h, content := p.content }

/-- The `C_CHANNEL` column of a `PodcastListModel` row: a real channel,
one of the two sentinel marker singletons, or the GTK default `None`. -/
inductive ChannelRef where
  | chan (title : String) (sectionName : String)
  | sectionMarker
  | separatorMarker
  | null
deriving DecidableEq

/-- One row of `PodcastListModel`, a `Gtk.ListStore` with 16 typed columns
(`C_URL` .. `C_SECTION`). -/
structure PRow where
  c_url : Option String
  c_title : Option String
  c_description : Option String
  c_pill : Option Pixbuf
  c_channel : ChannelRef
  c_cover : Option Pixbuf
  c_error : Option String
  c_pill_visible : Bool
  c_view_show_undeleted : Bool
  c_view_show_downloaded : Bool
  c_view_show_unplayed : Bool
  c_has_episodes : Bool
  c_separator : Bool
  c_downloads : Nat
  c_cover_visible : Bool
  c_section : Option String
deriving DecidableEq

/-- The separator row appended by `set_channels` when the all-episodes
entry is shown and sections are disabled (the literal 16-tuple at its
`self.append` call). -/
def separatorRow : PRow :=
  { c_url := some Msg.empty, c_title := some Msg.empty,
    c_description := some Msg.empty, c_pill := none,
    c_channel := ChannelRef.separatorMarker, c_cover := none,
    c_error := some Msg.empty, c_pill_visible := true,
    c_view_show_undeleted := true, c_view_show_downloaded := true,
    c_view_show_unplayed := true, c_has_episodes := true,
    c_separator := true, c_downloads := 0, c_cover_visible := false,
    c_section := some Msg.empty }

/-- State of a `PodcastListModel` relevant to filtering and the cover
thumbnail cache.  `view_mode` is an `Int` because the constructor
initialises it to `-1`; the cover cache is the `_cover_cache` dict as an
association list with Python-dict lookup/overwrite semantics, and
`max_image_side` is `_max_image_side`. -/
structure PodcastListModel where
  view_mode : Int
  search_term : Option String
  cover_cache : List (String × Pixbuf)
  max_image_side : Nat

/-- Python's `str.lower`, character-wise (kernel-reducible form of
`String.toLower`). -/
def lowerStr (s : String) : String := String.mk (s.data.map Char.toLower)

/-- Python's substring test `key in text`. -/
def containsSub (text key : String) : Bool :=
  (List.range (text.data.length + 1)).any
    (fun i => key.data.isPrefixOf (text.data.drop i))

/-- The three `SEARCH_COLUMNS` of a podcast row, in declaration order
(`C_TITLE`, `C_DESCRIPTION`, `C_SECTION`). -/
def searchColumns (r : PRow) : List (Option String) :=
  [r.c_title, r.c_description, r.c_section]

/-- Source method `PodcastListModel._filter_visible_func` as a pure function of the model
state and the row under test. -/
def podcast_filter_visible_func (m : PodcastListModel) (r : PRow) : Bool :=
  match m.search_term with
  | some term =>
    if r.c_channel = ChannelRef.sectionMarker then true
    else
      let key := lowerStr term
      (searchColumns r).any
        (fun c =>
          match c with
          | some s => containsSub (lowerStr s) key
          | none => false)
  | none =>
    if r.c_separator then true
    else if m.view_mode = (VIEW_ALL : Nat) then r.c_has_episodes
    else if m.view_mode = (VIEW_UNDELETED : Nat) then r.c_view_show_undeleted
    else if m.view_mode = (VIEW_DOWNLOADED : Nat) then r.c_view_show_downloaded
    else if m.view_mode = (VIEW_UNPLAYED : Nat) then r.c_view_show_unplayed
    else true

/-- Source method `PodcastListModel.set_max_image_size`: store the new size and replace
the cover cache with a fresh empty dict. -/
def set_max_image_size (size : Nat) (m : PodcastListModel) : PodcastListModel :=
  { m with max_image_side := size, cover_cache := [] }

/-- Python dict assignment `d[k] = v` on the association-list embedding. -/
def dictInsert (cache : List (String × Pixbuf)) (k : String) (v : Pixbuf) :
    List (String × Pixbuf) :=
  (k, v) :: cache.filter (fun kv => kv.1 ≠ k)

/-- Source method `PodcastListModel._resize_pixbuf_keep_ratio`: returns the cached entry
on a hit; otherwise scales the pixbuf down to `_max_image_side` (width
pass then height pass), caches and returns it when a resize happened, and
returns `None` without caching when none was needed.  Python computes the
scale factor in binary floating point and truncates with `int`; both
operands are nonnegative, so this is embedded as the rational floor. -/
def resize_pixbuf_keep_ratio (m : PodcastListModel) (url : String)
    (pixbuf : Pixbuf) : Option Pixbuf × PodcastListModel :=
  match m.cover_cache.lookup url with
  | some c => (some c, m)
  | none =>
    let step1 : Pixbuf × Bool :=
      if pixbuf.width > m.max_image_side then
        let f : ℚ := (m.max_image_side : ℚ) / (pixbuf.width : ℚ)
        (pixbuf.scale_simple (⌊(pixbuf.width : ℚ) * f⌋).toNat
          (⌊(pixbuf.height : ℚ) * f⌋).toNat, true)
      else (pixbuf, false)
    let step2 : Pixbuf × Bool :=
      if step1.1.height > m.max_image_side then
        let f : ℚ := (m.max_image_side : ℚ) / (step1.1.height : ℚ)
        (step1.1.scale_simple (⌊(step1.1.width : ℚ) * f⌋).toNat
          (⌊(step1.1.height : ℚ) * f⌋).toNat, true)
      else (step1.1, false)
    if step1.2 || step2.2 then
      (some step2.1, { m with cover_cache := dictInsert m.cover_cache url step2.1 })
    else
      (none, m)

/-- Source method `PodcastListModel._resize_pixbuf`: `keep_ratio(url, pixbuf) or pixbuf`
for a non-`None` pixbuf. -/
def resize_pixbuf (m : PodcastListModel) (url : String)
    (pixbuf : Option Pixbuf) : Option Pixbuf × PodcastListModel :=
  match pixbuf with
  | none => (none, m)
  | some p =>
    let out := resize_pixbuf_keep_ratio m url p
    (some (out.1.getD p), out.2)

theorem updateLoop_eq (cfg : ModelCfg) (incl : Bool) (elapsed : Nat → Bool)
    (eps : List Episode) : ∀ (idx k : Nat) (rows : List Row),
    updateLoop cfg incl elapsed eps idx k rows =
      (eps.drop (processedCount elapsed eps idx k),
       idx + processedCount elapsed eps idx k,
       writeEpisodeRows cfg incl (eps.take (processedCount elapsed eps idx k)) idx rows) := by
  induction eps with
  | nil =>
    intro idx k rows
    simp [updateLoop, processedCount, writeEpisodeRows]
  | cons e rest ih =>
    intro idx k rows
    by_cases h : ((idx + 1) % 50 == 0 && elapsed (k + 1)) = true
    · simp [updateLoop, processedCount, h, writeEpisodeRows]
    · rw [updateLoop, processedCount, if_neg h, if_neg h, ih]
      generalize processedCount elapsed rest (idx + 1) (k + 1) = n
      simp only [Prod.mk.injEq]
      refine ⟨?_, ?_, ?_⟩
      · rw [Nat.add_comm 1 n, List.drop_succ_cons]
      · omega
      · rw [Nat.add_comm 1 n, List.take_succ_cons, writeEpisodeRows]

theorem processedCount_le (elapsed : Nat → Bool) (eps : List Episode) :
    ∀ (idx k : Nat), processedCount elapsed eps idx k ≤ eps.length := by
  induction eps with
  | nil => intro idx k; simp [processedCount]
  | cons e rest ih =>
    intro idx k
    rw [processedCount]
    by_cases h : ((idx + 1) % 50 == 0 && elapsed (k + 1)) = true
    · simp [h]
    · rw [if_neg h]
      have := ih (idx + 1) (k + 1)
      simp only [List.length_cons]
      omega

theorem processedCount_pos (elapsed : Nat → Bool) (eps : List Episode)
    (idx k : Nat) (h : eps ≠ []) : 1 ≤ processedCount elapsed eps idx k := by
  cases eps with
  | nil => exact absurd rfl h
  | cons e rest =>
    rw [processedCount]
    by_cases hc : ((idx + 1) % 50 == 0 && elapsed (k + 1)) = true
    · simp [hc]
    · rw [if_neg hc]; omega

theorem processedCount_stop (elapsed : Nat → Bool) (eps : List Episode) :
    ∀ (idx k : Nat), processedCount elapsed eps idx k < eps.length →
      (idx + processedCount elapsed eps idx k) % 50 = 0 ∧
      elapsed (k + processedCount elapsed eps idx k) = true := by
  induction eps with
  | nil => intro idx k h; simp [processedCount] at h
  | cons e rest ih =>
    intro idx k h
    rw [processedCount] at h ⊢
    by_cases hc : ((idx + 1) % 50 == 0 && elapsed (k + 1)) = true
    · rw [if_pos hc] at h ⊢
      rw [Bool.and_eq_true] at hc
      have h1 := hc.1
      rw [beq_iff_eq] at h1
      exact ⟨h1, hc.2⟩
    · rw [if_neg hc] at h ⊢
      simp only [List.length_cons] at h
      have := ih (idx + 1) (k + 1) (by omega)
      constructor
      · have : (idx + 1 + processedCount elapsed rest (idx + 1) (k + 1)) % 50 = 0 := this.1
        have heq : idx + (1 + processedCount elapsed rest (idx + 1) (k + 1)) =
            idx + 1 + processedCount elapsed rest (idx + 1) (k + 1) := by omega
        rw [heq]; exact this
      · have h2 := this.2
        have heq : k + (1 + processedCount elapsed rest (idx + 1) (k + 1)) =
            k + 1 + processedCount elapsed rest (idx + 1) (k + 1) := by omega
        rw [heq]; exact h2

theorem processedCount_first (elapsed : Nat → Bool) (eps : List Episode) :
    ∀ (idx k m : Nat), 0 < m → m < processedCount elapsed eps idx k →
      (idx + m) % 50 = 0 → elapsed (k + m) = false := by
  induction eps with
  | nil => intro idx k m _ h; simp [processedCount] at h
  | cons e rest ih =>
    intro idx k m hm hlt hmod
    rw [processedCount] at hlt
    by_cases hc : ((idx + 1) % 50 == 0 && elapsed (k + 1)) = true
    · rw [if_pos hc] at hlt; omega
    · rw [if_neg hc] at hlt
      rcases Nat.eq_or_lt_of_le (show 1 ≤ m by omega) with h1 | h1
      · subst h1
        cases he : elapsed (k + 1) with
        | false => rfl
        | true =>
          exfalso
          apply hc
          rw [Bool.and_eq_true]
          exact ⟨beq_iff_eq.mpr hmod, he⟩
      · have := ih (idx + 1) (k + 1) (m - 1) (by omega) (by omega)
          (by
            have heq : idx + 1 + (m - 1) = idx + m := by omega
            rw [heq]; exact hmod)
        have heq : k + 1 + (m - 1) = k + m := by omega
        rw [heq] at this
        exact this

theorem length_writeEpisodeRows (cfg : ModelCfg) (incl : Bool)
    (eps : List Episode) : ∀ (idx : Nat) (rows : List Row),
    (writeEpisodeRows cfg incl eps idx rows).length = rows.length := by
  induction eps with
  | nil => intro idx rows; rfl
  | cons e rest ih =>
    intro idx rows
    rw [writeEpisodeRows, ih, List.length_set]

theorem writeEpisodeRows_append (cfg : ModelCfg) (incl : Bool)
    (a : List Episode) : ∀ (b : List Episode) (idx : Nat) (rows : List Row),
    writeEpisodeRows cfg incl (a ++ b) idx rows =
      writeEpisodeRows cfg incl b (idx + a.length)
        (writeEpisodeRows cfg incl a idx rows) := by
  induction a with
  | nil => intro b idx rows; simp [writeEpisodeRows]
  | cons e rest ih =>
    intro b idx rows
    rw [List.cons_append, writeEpisodeRows, writeEpisodeRows, ih]
    have heq : idx + 1 + rest.length = idx + (rest.length + 1) := by omega
    rw [heq]
    rfl

theorem writeEpisodeRows_set_lt (cfg : ModelCfg) (incl : Bool)
    (eps : List Episode) : ∀ (j : Nat) (rows : List Row) (i : Nat) (v : Row),
    i < j → writeEpisodeRows cfg incl eps j (rows.set i v) =
      (writeEpisodeRows cfg incl eps j rows).set i v := by
  induction eps with
  | nil => intro j rows i v _; rfl
  | cons e rest ih =>
    intro j rows i v hij
    rw [writeEpisodeRows, writeEpisodeRows,
      List.set_comm _ _ _ (by omega : i ≠ j), ih (j + 1) _ i v (by omega)]

theorem writeEpisodeRows_idem (cfg : ModelCfg) (incl : Bool)
    (eps : List Episode) : ∀ (idx : Nat) (rows : List Row),
    writeEpisodeRows cfg incl eps idx (writeEpisodeRows cfg incl eps idx rows) =
      writeEpisodeRows cfg incl eps idx rows := by
  induction eps with
  | nil => intro idx rows; rfl
  | cons e rest ih =>
    intro idx rows
    calc
      writeEpisodeRows cfg incl (e :: rest) idx
          (writeEpisodeRows cfg incl (e :: rest) idx rows)
        = writeEpisodeRows cfg incl rest (idx + 1)
            ((writeEpisodeRows cfg incl rest (idx + 1)
              (rows.set idx (mkRow cfg e incl))).set idx (mkRow cfg e incl)) := rfl
      _ = writeEpisodeRows cfg incl rest (idx + 1)
            (writeEpisodeRows cfg incl rest (idx + 1)
              ((rows.set idx (mkRow cfg e incl)).set idx (mkRow cfg e incl))) := by
          rw [← writeEpisodeRows_set_lt cfg incl rest (idx + 1) _ idx _ (by omega)]
      _ = writeEpisodeRows cfg incl rest (idx + 1)
            (writeEpisodeRows cfg incl rest (idx + 1)
              (rows.set idx (mkRow cfg e incl))) := by
          rw [List.set_set]
      _ = writeEpisodeRows cfg incl rest (idx + 1)
            (rows.set idx (mkRow cfg e incl)) := ih _ _
      _ = writeEpisodeRows cfg incl (e :: rest) idx rows := rfl

theorem update_eq (cfg : ModelCfg) (elapsed : Nat → Bool)
    (bg : BackgroundUpdate) (rows : List Row) :
    BackgroundUpdate.update cfg elapsed bg rows =
      (⟨bg.episodes.drop (processedCount elapsed bg.episodes bg.index 0),
        bg.include_description,
        bg.index + processedCount elapsed bg.episodes bg.index 0⟩,
       writeEpisodeRows cfg bg.include_description
         (bg.episodes.take (processedCount elapsed bg.episodes bg.index 0))
         bg.index rows,
       !(bg.episodes.drop (processedCount elapsed bg.episodes bg.index 0)).isEmpty) := by
  rw [BackgroundUpdate.update, updateLoop_eq]

theorem update_background_cfg (elapsed : Nat → Bool) (m : EpisodeListModel) :
    cfgOf (update_background elapsed m).1 = cfgOf m := by
  rw [update_background]
  cases m.background_update with
  | none => rfl
  | some bg =>
    by_cases h : (BackgroundUpdate.update (cfgOf m) elapsed bg m.rows).2.2 = true
    · simp only [h, if_pos]; rfl
    · simp only [h, if_neg, Bool.false_eq_true, not_false_eq_true]; rfl

theorem runBackground_cfg (oracle : Nat → Nat → Bool) :
    ∀ (fuel s : Nat) (m : EpisodeListModel),
    cfgOf (runBackground oracle s fuel m) = cfgOf m := by
  intro fuel
  induction fuel with
  | zero => intro s m; rfl
  | succ fuel ih =>
    intro s m
    rw [runBackground]
    by_cases h : (update_background (oracle s) m).2 = true
    · rw [if_pos h, ih, update_background_cfg]
    · rw [if_neg h, update_background_cfg]

theorem update_background_length (elapsed : Nat → Bool) (m : EpisodeListModel) :
    (update_background elapsed m).1.rows.length = m.rows.length := by
  cases hbg : m.background_update with
  | none => simp [update_background, hbg]
  | some bg =>
    simp only [update_background, hbg, update_eq]
    by_cases h : (!(bg.episodes.drop
        (processedCount elapsed bg.episodes bg.index 0)).isEmpty) = true
    · simp [h, length_writeEpisodeRows]
    · simp [h, length_writeEpisodeRows]

theorem runBackground_length (oracle : Nat → Nat → Bool) :
    ∀ (fuel s : Nat) (m : EpisodeListModel),
    (runBackground oracle s fuel m).rows.length = m.rows.length := by
  intro fuel
  induction fuel with
  | zero => intro s m; rfl
  | succ fuel ih =>
    intro s m
    rw [runBackground]
    by_cases h : (update_background (oracle s) m).2 = true
    · rw [if_pos h, ih, update_background_length]
    · rw [if_neg h, update_background_length]

theorem runBackground_complete (oracle : Nat → Nat → Bool) :
    ∀ (fuel s : Nat) (m : EpisodeListModel) (eps : List Episode) (incl : Bool)
      (idx : Nat),
    m.background_update = some ⟨eps, incl, idx⟩ → eps.length ≤ fuel →
    (runBackground oracle s fuel m).rows =
      writeEpisodeRows (cfgOf m) incl eps idx m.rows := by
  intro fuel
  induction fuel with
  | zero =>
    intro s m eps incl idx hbg hfuel
    have heps : eps = [] := List.length_eq_zero.mp (by omega)
    subst heps
    rfl
  | succ fuel ih =>
    intro s m eps incl idx hbg hfuel
    have hn := processedCount_le (oracle s) eps idx 0
    rw [runBackground]
    rw [show update_background (oracle s) m =
        (let out := BackgroundUpdate.update (cfgOf m) (oracle s) ⟨eps, incl, idx⟩ m.rows
         if out.2.2 then
           ({ m with rows := out.2.1, background_update := some out.1 }, true)
         else
           let m' := { m with
             rows := out.2.1,
             background_update := (none : Option BackgroundUpdate),
             background_update_tag := (none : Option Nat),
             scheduled :=
               (match m.background_update_tag with
                | some t => m.scheduled.erase t
                | none => m.scheduled) }
           (m', false)) from by rw [update_background, hbg]]
    rw [update_eq]
    by_cases h : (!(eps.drop (processedCount (oracle s) eps idx 0)).isEmpty) = true
    · simp only [h, if_pos, if_true]
      have hne : eps ≠ [] := by
        intro he
        subst he
        simp [processedCount, List.isEmpty] at h
      have hpos := processedCount_pos (oracle s) eps idx 0 hne
      rw [ih]
      · show writeEpisodeRows (cfgOf m) incl
            (eps.drop (processedCount (oracle s) eps idx 0))
            (idx + processedCount (oracle s) eps idx 0)
            (writeEpisodeRows (cfgOf m) incl
              (eps.take (processedCount (oracle s) eps idx 0)) idx m.rows) =
          writeEpisodeRows (cfgOf m) incl eps idx m.rows
        conv_rhs => rw [← List.take_append_drop (processedCount (oracle s) eps idx 0) eps]
        rw [writeEpisodeRows_append]
        rw [List.length_take]
        have : min (processedCount (oracle s) eps idx 0) eps.length =
            processedCount (oracle s) eps idx 0 := by omega
        rw [this]
      · rfl
      · rw [List.length_drop]
        omega
    · simp only [h, if_neg, Bool.false_eq_true, not_false_eq_true, if_false]
      have hdrop : eps.drop (processedCount (oracle s) eps idx 0) = [] := by
        cases hd : (eps.drop (processedCount (oracle s) eps idx 0)).isEmpty with
        | true => exact List.isEmpty_iff.mp hd
        | false => rw [hd] at h; simp at h
      have hlen : eps.length ≤ processedCount (oracle s) eps idx 0 :=
        List.drop_eq_nil_iff.mp hdrop
      show writeEpisodeRows (cfgOf m) incl
          (eps.take (processedCount (oracle s) eps idx 0)) idx m.rows =
        writeEpisodeRows (cfgOf m) incl eps idx m.rows
      rw [List.take_of_length_le hlen]

theorem filter_visible_of_no_search (m : EpisodeListModel) (r : Row)
    (h : m.search_term = none) :
    filter_visible_func m r = viewFlag m.view_mode r := by
  rw [filter_visible_func, h]
  rfl

theorem filter_visible_of_search (m : EpisodeListModel) (r : Row) (t : String)
    (h : m.search_term = some t) :
    filter_visible_func m r =
      (match r.c_episode with
       | none => false
       | some episode =>
         match m.search_eql episode with
         | some b => b
         | none => true) := by
  rw [filter_visible_func, h]

/-- An episode whose every field is blank; concrete input for witnesses. -/
def epBlank : Episode :=
  { url := Msg.empty, title := Msg.empty, trimmed_title := Msg.empty,
    channel_title := Msg.empty, published := 0, cute_pubdate := Msg.empty,
    state := STATE_NORMAL, is_new := false, archive := false,
    downloading := false, download_progress := 0, total_time := 0,
    current_position := 0, file_size := 0, file_exists := false,
    file_type := Msg.empty, themed_icon := none, play_info_string := Msg.empty,
    one_line_description := Msg.empty }

/-- A downloading episode; concrete input for witnesses. -/
def epDownloading : Episode := { epBlank with downloading := true }

/-- A freshly constructed `EpisodeListModel` (no search, `VIEW_ALL`, empty
store); concrete input for witnesses. -/
def m0 : EpisodeListModel :=
  { rows := [], view_mode := VIEW_ALL, search_term := none,
    search_eql := fun _ => none, all_episodes_view := false,
    icon_deleted := Msg.empty, background_update := none,
    background_update_tag := none, scheduled := [], next_tag := 0 }

/-- Concrete search term for witnesses. -/
def strA : String := "a"

/-- An `EpisodeListModel` with an active search whose matcher always
raises; concrete input for witnesses. -/
def mSearch : EpisodeListModel :=
  { m0 with search_term := some strA, search_eql := fun _ => none }

/-- A row carrying a backing episode; concrete input for witnesses. -/
def rowE : Row := { defaultRow with c_episode := some epBlank }

/-- C4: with no search term and view mode `VIEW_UNDELETED`, an episode row
is visible iff its precomputed `C_VIEW_SHOW_UNDELETED` flag is true; in
general visibility under any view mode equals that mode's flag, so
switching between two modes changes visibility exactly at the rows whose
flags for the two modes differ. -/
theorem c4_view_mode_filter (m : EpisodeListModel) (h : m.search_term = none) :
    (∀ r : Row, filter_visible_func { m with view_mode := VIEW_UNDELETED } r =
      r.c_view_show_undeleted) ∧
    (∀ (v : Nat) (r : Row), filter_visible_func { m with view_mode := v } r =
      viewFlag v r) ∧
    (∀ (v1 v2 : Nat) (r : Row),
      (filter_visible_func { m with view_mode := v1 } r ≠
        filter_visible_func { m with view_mode := v2 } r) ↔
      viewFlag v1 r ≠ viewFlag v2 r) := by
  have key : ∀ (v : Nat) (r : Row),
      filter_visible_func { m with view_mode := v } r = viewFlag v r := by
    intro v r
    exact filter_visible_of_no_search { m with view_mode := v } r h
  refine ⟨?_, key, ?_⟩
  · intro r
    rw [key VIEW_UNDELETED r, viewFlag]
    simp [VIEW_ALL, VIEW_UNDELETED]
  · intro v1 v2 r
    rw [key v1 r, key v2 r]

/-- C4 witness: `c4_view_mode_filter` instantiated at a concrete model with
no search term and a blank row. -/
theorem c4_view_mode_filter_witness :
    filter_visible_func { m0 with view_mode := VIEW_UNDELETED } defaultRow =
      defaultRow.c_view_show_undeleted :=
  (c4_view_mode_filter m0 rfl).1 defaultRow

/-- C2: while a search term is active the view-mode flags are ignored by
`EpisodeListModel._filter_visible_func` (changing the view mode never
changes visibility), a row without a backing episode is hidden, a row with
one is visible exactly when the query predicate matches it, a predicate
matching nothing hides every row, and the podcast model's section-marker
sentinel rows stay visible under any search term. -/
theorem c2_search_overrides_view_mode (m : EpisodeListModel) (t : String)
    (h : m.search_term = some t) :
    (∀ (v : Nat) (r : Row), filter_visible_func { m with view_mode := v } r =
      filter_visible_func m r) ∧
    (∀ r : Row, r.c_episode = none → filter_visible_func m r = false) ∧
    (∀ (r : Row) (e : Episode) (b : Bool), r.c_episode = some e →
      m.search_eql e = some b → filter_visible_func m r = b) ∧
    ((∀ e : Episode, m.search_eql e = some false) →
      ∀ r : Row, filter_visible_func m r = false) ∧
    (∀ (pm : PodcastListModel) (t2 : String) (r : PRow),
      pm.search_term = some t2 → r.c_channel = ChannelRef.sectionMarker →
      podcast_filter_visible_func pm r = true) := by
  refine ⟨?_, ?_, ?_, ?_, ?_⟩
  · intro v r
    rw [filter_visible_of_search { m with view_mode := v } r t h,
      filter_visible_of_search m r t h]
  · intro r hr
    rw [filter_visible_of_search m r t h, hr]
  · intro r e b hr he
    rw [filter_visible_of_search m r t h, hr]
    simp [he]
  · intro hall r
    rw [filter_visible_of_search m r t h]
    cases hr : r.c_episode with
    | none => rfl
    | some e => simp [hall e]
  · intro pm t2 r hpm hchan
    simp [podcast_filter_visible_func, hpm, hchan]

/-- C2 witness: `c2_search_overrides_view_mode` instantiated at a model
with an active search term and a row without a backing episode. -/
theorem c2_search_overrides_view_mode_witness :
    filter_visible_func mSearch defaultRow = false :=
  (c2_search_overrides_view_mode mSearch strA rfl).2.1 defaultRow rfl

/-- C7: while a search term is active, a row whose predicate evaluation
raises is visible (fail open), and setting the same search term again
leaves the model (hence the stored predicate) unchanged, so the behaviour
persists until the term actually changes. -/
theorem c7_search_fail_open (m : EpisodeListModel) (t : String) (r : Row)
    (e : Episode) (h1 : m.search_term = some t) (h2 : r.c_episode = some e)
    (h3 : m.search_eql e = none) :
    filter_visible_func m r = true ∧
    ∀ userEQL : Option String → Episode → Option Bool,
      set_search_term userEQL (some t) m = m := by
  constructor
  · rw [filter_visible_of_search m r t h1, h2]
    simp [h3]
  · intro userEQL
    rw [set_search_term, h1]
    simp

/-- C7 witness: `c7_search_fail_open` instantiated at a model whose
matcher always raises and a row with a backing episode. -/
theorem c7_search_fail_open_witness :
    filter_visible_func mSearch rowE = true :=
  (c7_search_fail_open mSearch strA rowE epBlank rfl rfl rfl).1

/-- C10: the field tuple computed by `get_update_fields` never sets the
`C_VIEW_SHOW_UNPLAYED` flag without also setting `C_VIEW_SHOW_DOWNLOADED`,
so updates preserve the invariant that an unplayed-visible row is
downloaded-visible. -/
theorem c10_unplayed_implies_downloaded (cfg : ModelCfg) (e : Episode)
    (incl : Bool)
    (h : (get_update_fields cfg e incl).view_show_unplayed = true) :
    (get_update_fields cfg e incl).view_show_downloaded = true := by
  have hu : (get_update_fields cfg e incl).view_show_unplayed =
      (ufBranch cfg e).view_show_unplayed := rfl
  have hd : (get_update_fields cfg e incl).view_show_downloaded =
      (ufBranch cfg e).view_show_downloaded := rfl
  rw [hu] at h
  rw [hd]
  revert h
  rw [ufBranch]
  split_ifs with h1 h2 h3 h4
  · intro _; rfl
  · intro hx; exact absurd hx (by simp)
  · intro _; rfl
  · intro _; rw [downloadedBranch]
  · intro hx; exact absurd hx (by simp)

/-- C10 witness: `c10_unplayed_implies_downloaded` at a downloading
episode, whose unplayed flag is set. -/
theorem c10_unplayed_implies_downloaded_witness :
    (get_update_fields (ModelCfg.mk false Msg.empty) epDownloading false).view_show_downloaded
      = true :=
  c10_unplayed_implies_downloaded (ModelCfg.mk false Msg.empty) epDownloading false rfl

/-- C1: a single `BackgroundUpdate.update` slice (starting, as every
reachable slice does, at an index that is a multiple of 50) advances by
`processedCount` episodes: it processes at most the whole queue, at least
one episode when the queue is non-empty regardless of the clock, returns
true iff unprocessed episodes remain, and when it stops early it does so
exactly at the first 50-entity checkpoint at which the elapsed-time check
(20 ms in the source) observes the budget exceeded — in particular at
least 50 entities have been processed and no earlier checkpoint had
exceeded the budget. -/
theorem c1_slice_budget (cfg : ModelCfg) (elapsed : Nat → Bool)
    (bg : BackgroundUpdate) (rows : List Row) (hidx : bg.index % 50 = 0) :
    (BackgroundUpdate.update cfg elapsed bg rows).1.index =
      bg.index + processedCount elapsed bg.episodes bg.index 0 ∧
    (BackgroundUpdate.update cfg elapsed bg rows).1.episodes =
      bg.episodes.drop (processedCount elapsed bg.episodes bg.index 0) ∧
    processedCount elapsed bg.episodes bg.index 0 ≤ bg.episodes.length ∧
    (bg.episodes ≠ [] → 1 ≤ processedCount elapsed bg.episodes bg.index 0) ∧
    ((BackgroundUpdate.update cfg elapsed bg rows).2.2 = true ↔
      (BackgroundUpdate.update cfg elapsed bg rows).1.episodes ≠ []) ∧
    (processedCount elapsed bg.episodes bg.index 0 < bg.episodes.length →
      50 ≤ processedCount elapsed bg.episodes bg.index 0 ∧
      processedCount elapsed bg.episodes bg.index 0 % 50 = 0 ∧
      elapsed (processedCount elapsed bg.episodes bg.index 0) = true ∧
      ∀ j : Nat, 0 < j → j < processedCount elapsed bg.episodes bg.index 0 →
        j % 50 = 0 → elapsed j = false) := by
  rw [update_eq]
  refine ⟨rfl, rfl, processedCount_le elapsed bg.episodes bg.index 0, ?_, ?_, ?_⟩
  · intro hne
    exact processedCount_pos elapsed bg.episodes bg.index 0 hne
  · show (!(bg.episodes.drop (processedCount elapsed bg.episodes bg.index 0)).isEmpty)
        = true ↔
      bg.episodes.drop (processedCount elapsed bg.episodes bg.index 0) ≠ []
    cases bg.episodes.drop (processedCount elapsed bg.episodes bg.index 0) with
    | nil => simp
    | cons a l => simp
  · intro hlt
    have hne : bg.episodes ≠ [] := by
      intro he
      rw [he] at hlt
      simp [processedCount] at hlt
    have hpos := processedCount_pos elapsed bg.episodes bg.index 0 hne
    have hstop := processedCount_stop elapsed bg.episodes bg.index 0 hlt
    have hmod : processedCount elapsed bg.episodes bg.index 0 % 50 = 0 := by
      have := hstop.1
      omega
    refine ⟨by omega, hmod, ?_, ?_⟩
    · have := hstop.2
      rw [Nat.zero_add] at this
      exact this
    · intro j hj hjlt hjmod
      have := processedCount_first elapsed bg.episodes bg.index 0 j hj hjlt
        (by omega)
      rw [Nat.zero_add] at this
      exact this

/-- A trivial model configuration for witnesses. -/
def cfg0 : ModelCfg := ModelCfg.mk false Msg.empty

/-- A clock oracle that always reports the budget exceeded. -/
def elapsedAlways : Nat → Bool := fun _ => true

/-- C1 witness: `c1_slice_budget` at a fresh updater holding one episode
and an always-exceeded clock; the slice still processes that episode and
empties the queue. -/
theorem c1_slice_budget_witness :
    (0 : Nat) % 50 = 0 ∧
    (BackgroundUpdate.update cfg0 elapsedAlways
      (BackgroundUpdate.mk [epBlank] false 0) [defaultRow]).1.episodes = [] := by
  constructor
  · decide
  · have h := c1_slice_budget cfg0 elapsedAlways
      (BackgroundUpdate.mk [epBlank] false 0) [defaultRow] (by decide)
    rw [h.2.1]
    rfl

/-- Concrete podcast-model states and rows for the C9 analysis. -/
def strX : String := "x"

/-- A fresh `PodcastListModel` (constructor state: view mode `-1`, no
search, empty cover cache, image side 40). -/
def mPodNone : PodcastListModel :=
  { view_mode := -1, search_term := none, cover_cache := [],
    max_image_side := 40 }

/-- The podcast model with an active search term `x`. -/
def mPodSearchX : PodcastListModel := { mPodNone with search_term := some strX }

/-- The podcast model with no search and view mode `VIEW_UNDELETED`. -/
def mPodUndeleted : PodcastListModel :=
  { mPodNone with view_mode := (VIEW_UNDELETED : Nat) }

/-- A section-marker row as appended by `set_channels` after
`update_by_iter` recomputed its aggregated flags over a section whose
episodes are all deleted (`total - deleted > 0` is false). -/
def sectionRowAllDeleted : PRow :=
  { c_url := some Msg.empty, c_title := some Msg.empty,
    c_description := some Msg.empty, c_pill := none,
    c_channel := ChannelRef.sectionMarker, c_cover := none,
    c_error := some Msg.empty, c_pill_visible := true,
    c_view_show_undeleted := false, c_view_show_downloaded := true,
    c_view_show_unplayed := true, c_has_episodes := true,
    c_separator := false, c_downloads := 0, c_cover_visible := false,
    c_section := some Msg.empty }

/-- C9 counterexample: sentinel rows are not always visible.  The
separator row that `set_channels` appends is hidden under the active
search term `x` (its searchable fields are empty strings), and a
section-marker row whose aggregated undeleted flag is false is hidden in
view mode `VIEW_UNDELETED` with no search active. -/
theorem c9_counterexample :
    podcast_filter_visible_func mPodSearchX separatorRow = false ∧
    podcast_filter_visible_func mPodUndeleted sectionRowAllDeleted = false := by
  constructor
  · rfl
  · rfl

/-- C9 as amended: separator rows are always visible when no search term
is active, and section-marker rows are always visible while a search term
is active; but under an active search a non-section row (separator rows
included) is hidden whenever none of its searchable columns contains the
lowercased term, and with no search a non-separator row (section markers
included) in mode `VIEW_UNDELETED` is visible exactly per its undeleted
flag. -/
theorem c9_sentinel_visibility :
    (∀ (m : PodcastListModel) (r : PRow), m.search_term = none →
      r.c_separator = true → podcast_filter_visible_func m r = true) ∧
    (∀ (m : PodcastListModel) (r : PRow) (t : String), m.search_term = some t →
      r.c_channel = ChannelRef.sectionMarker →
      podcast_filter_visible_func m r = true) ∧
    (∀ (m : PodcastListModel) (r : PRow) (t : String), m.search_term = some t →
      r.c_channel ≠ ChannelRef.sectionMarker →
      (∀ c ∈ searchColumns r, ∀ s : String, c = some s →
        containsSub (lowerStr s) (lowerStr t) = false) →
      podcast_filter_visible_func m r = false) ∧
    (∀ (m : PodcastListModel) (r : PRow), m.search_term = none →
      r.c_separator = false → m.view_mode = (VIEW_UNDELETED : Nat) →
      podcast_filter_visible_func m r = r.c_view_show_undeleted) := by
  refine ⟨?_, ?_, ?_, ?_⟩
  · intro m r hs hsep
    simp [podcast_filter_visible_func, hs, hsep]
  · intro m r t hs hchan
    simp [podcast_filter_visible_func, hs, hchan]
  · intro m r t hs hchan hcols
    simp only [podcast_filter_visible_func, hs]
    rw [if_neg hchan]
    rw [List.any_eq_false]
    intro c hc
    cases c with
    | none => simp
    | some s =>
      simp only [Bool.not_eq_true]
      exact hcols (some s) hc s rfl
  · intro m r hs hsep hv
    simp [podcast_filter_visible_func, hs, hsep, hv, VIEW_ALL, VIEW_UNDELETED]

/-- C9 amended-claim witness: `c9_sentinel_visibility` instantiated at the
fresh podcast model and the literal separator row. -/
theorem c9_sentinel_visibility_witness :
    podcast_filter_visible_func mPodNone separatorRow = true :=
  c9_sentinel_visibility.1 mPodNone separatorRow rfl rfl

theorem update_from_episodes_rows (eps : List Episode) (incl : Bool)
    (m : EpisodeListModel) :
    (update_from_episodes eps incl m).rows = m.rows := by
  cases htag : m.background_update_tag with
  | none => simp [update_from_episodes, htag]
  | some t => simp [update_from_episodes, htag]

theorem update_from_episodes_bg (eps : List Episode) (incl : Bool)
    (m : EpisodeListModel) :
    (update_from_episodes eps incl m).background_update = some ⟨eps, incl, 0⟩ := by
  cases htag : m.background_update_tag with
  | none => simp [update_from_episodes, htag]
  | some t => simp [update_from_episodes, htag]

theorem update_from_episodes_cfg (eps : List Episode) (incl : Bool)
    (m : EpisodeListModel) :
    cfgOf (update_from_episodes eps incl m) = cfgOf m := by
  cases htag : m.background_update_tag with
  | none => simp [update_from_episodes, htag, cfgOf]
  | some t => simp [update_from_episodes, htag, cfgOf]

/-- C3: requesting `update_all` while a background update is in progress
rebuilds the queue as the episodes of the already-processed rows (the
positions strictly below the in-progress index) followed by the old
queue's unprocessed episodes, and swaps the idle task: with exactly the
old task registered beforehand, exactly the fresh task is registered
afterwards, so two updater tasks are never active at once. -/
theorem c3_update_all_merge (m : EpisodeListModel) (bg : BackgroundUpdate)
    (incl : Bool) (processed : List Episode) (t : Nat)
    (hbg : m.background_update = some bg)
    (hproc : (m.rows.take bg.index).mapM Row.c_episode = some processed)
    (htag : m.background_update_tag = some t)
    (hsched : m.scheduled = [t]) :
    ∃ m' : EpisodeListModel, update_all incl m = some m' ∧
      m'.background_update = some ⟨processed ++ bg.episodes, incl, 0⟩ ∧
      m'.background_update_tag = some m.next_tag ∧
      m'.scheduled = [m.next_tag] := by
  refine ⟨update_from_episodes (processed ++ bg.episodes) incl m, ?_, ?_, ?_, ?_⟩
  · simp only [update_all, hbg]
    rw [hproc]
    rfl
  · exact update_from_episodes_bg _ _ _
  · simp [update_from_episodes, htag]
  · simp [update_from_episodes, htag, hsched]

/-- The background updater of the C3 witness: one row already processed,
nothing left in its queue. -/
def bgW : BackgroundUpdate := BackgroundUpdate.mk [epBlank] false 1

/-- Concrete model for the C3 witness: two rows, the first one already
populated, an idle task with tag 7 registered. -/
def mW : EpisodeListModel :=
  { m0 with
    rows := [rowE, defaultRow],
    background_update := some bgW,
    background_update_tag := some 7,
    scheduled := [7],
    next_tag := 8 }

/-- C3 witness: `c3_update_all_merge` at the concrete in-progress model;
the merged queue is the processed episode followed by the pending one, and
only the fresh tag 8 stays registered. -/
theorem c3_update_all_merge_witness :
    mW.background_update = some bgW ∧
    ∃ m' : EpisodeListModel, update_all false mW = some m' ∧
      m'.background_update = some ⟨[epBlank] ++ bgW.episodes, false, 0⟩ ∧
      m'.background_update_tag = some mW.next_tag ∧
      m'.scheduled = [mW.next_tag] :=
  ⟨rfl, c3_update_all_merge mW bgW false [epBlank] 7 rfl rfl rfl rfl⟩

/-- C6: after `replace_from_channel` the store holds exactly one row per
episode of the channel (the episode list model inserts no sentinel rows),
and the count is preserved by every subsequent run of background-update
slices, i.e. it holds at all times during and after the population. -/
theorem c6_row_count (channel : Channel) (incl : Bool) (m : EpisodeListModel)
    (oracle : Nat → Nat → Bool) (s fuel : Nat) :
    (replace_from_channel (some channel) incl m).rows.length =
      channel.episodes.length ∧
    (runBackground oracle s fuel
        (replace_from_channel (some channel) incl m)).rows.length =
      channel.episodes.length := by
  have hlen : (replace_from_channel (some channel) incl m).rows.length =
      channel.episodes.length := by
    rw [replace_from_channel]
    rw [update_from_episodes_rows]
    simp
  exact ⟨hlen, by rw [runBackground_length, hlen]⟩

/-- C5: running the incremental updater to completion twice in succession
over the same episode list with the same include-description flag leaves
the rows exactly as after the first completed run. -/
theorem c5_updater_idempotent (m : EpisodeListModel) (eps : List Episode)
    (incl : Bool) (o1 o2 : Nat → Nat → Bool) (f1 f2 : Nat)
    (h1 : eps.length ≤ f1) (h2 : eps.length ≤ f2) :
    (runBackground o2 0 f2 (update_from_episodes eps incl
        (runBackground o1 0 f1 (update_from_episodes eps incl m)))).rows =
      (runBackground o1 0 f1 (update_from_episodes eps incl m)).rows := by
  have hr1 : (runBackground o1 0 f1 (update_from_episodes eps incl m)).rows =
      writeEpisodeRows (cfgOf m) incl eps 0 m.rows := by
    rw [runBackground_complete o1 f1 0 (update_from_episodes eps incl m) eps incl 0
      (update_from_episodes_bg eps incl m) h1]
    rw [update_from_episodes_rows, update_from_episodes_cfg]
  have hcfg : cfgOf (runBackground o1 0 f1 (update_from_episodes eps incl m)) =
      cfgOf m := by
    rw [runBackground_cfg, update_from_episodes_cfg]
  have hr2 : (runBackground o2 0 f2 (update_from_episodes eps incl
      (runBackground o1 0 f1 (update_from_episodes eps incl m)))).rows =
      writeEpisodeRows (cfgOf m) incl eps 0
        (writeEpisodeRows (cfgOf m) incl eps 0 m.rows) := by
    rw [runBackground_complete o2 f2 0 _ eps incl 0
      (update_from_episodes_bg eps incl _) h2]
    rw [update_from_episodes_rows, update_from_episodes_cfg, hcfg, hr1]
  rw [hr2, hr1, writeEpisodeRows_idem]

/-- C5 witness: `c5_updater_idempotent` at a one-episode list over the
empty starting model with single-slice fuel. -/
theorem c5_updater_idempotent_witness :
    ([epBlank] : List Episode).length ≤ 1 ∧
    (runBackground (fun _ _ => false) 0 1 (update_from_episodes [epBlank] false
        (runBackground (fun _ _ => false) 0 1
          (update_from_episodes [epBlank] false m0)))).rows =
      (runBackground (fun _ _ => false) 0 1
        (update_from_episodes [epBlank] false m0)).rows :=
  ⟨by decide,
    c5_updater_idempotent m0 [epBlank] false (fun _ _ => false) (fun _ _ => false)
      1 1 (by decide) (by decide)⟩

theorem keep_ratio_hit (m : PodcastListModel) (url : String) (p c : Pixbuf)
    (h : m.cover_cache.lookup url = some c) :
    resize_pixbuf_keep_ratio m url p = (some c, m) := by
  rw [resize_pixbuf_keep_ratio, h]

/-- C8: when the first thumbnail request for an identifier resizes (the
source image is wider than the configured side) it stores the resized
image, and any second request for the same identifier without an
intervening invalidation returns exactly that cached instance while
leaving the cache untouched; and `set_max_image_size` empties the whole
cover cache. -/
theorem c8_cover_cache (m : PodcastListModel) (url : String) (p q : Pixbuf)
    (size : Nat) (hmiss : m.cover_cache.lookup url = none)
    (hbig : m.max_image_side < p.width) :
    (∃ c : Pixbuf,
      (resize_pixbuf_keep_ratio m url p).1 = some c ∧
      (resize_pixbuf_keep_ratio m url p).2.cover_cache.lookup url = some c ∧
      resize_pixbuf_keep_ratio (resize_pixbuf_keep_ratio m url p).2 url q =
        (some c, (resize_pixbuf_keep_ratio m url p).2)) ∧
    (set_max_image_size size m).cover_cache = [] := by
  have hfirst : ∃ c : Pixbuf, resize_pixbuf_keep_ratio m url p =
      (some c, { m with cover_cache := dictInsert m.cover_cache url c }) := by
    simp only [resize_pixbuf_keep_ratio, hmiss]
    rw [if_pos hbig]
    by_cases h2 : (p.scale_simple
        (⌊(p.width : ℚ) * ((m.max_image_side : ℚ) / (p.width : ℚ))⌋).toNat
        (⌊(p.height : ℚ) * ((m.max_image_side : ℚ) / (p.width : ℚ))⌋).toNat,
        true).1.height > m.max_image_side
    · rw [if_pos h2]
      exact ⟨_, rfl⟩
    · rw [if_neg h2]
      exact ⟨_, rfl⟩
  obtain ⟨c, hc⟩ := hfirst
  have hlook : (resize_pixbuf_keep_ratio m url p).2.cover_cache.lookup url =
      some c := by
    rw [hc]
    simp [dictInsert, List.lookup]
  refine ⟨⟨c, by rw [hc], hlook, ?_⟩, rfl⟩
  rw [keep_ratio_hit _ url q c hlook]

/-- Concrete identifier for the C8 witness. -/
def urlW : String := "u"

/-- Concrete over-wide pixbuf for the C8 witness. -/
def pixW : Pixbuf := Pixbuf.mk 80 20 0

/-- C8 witness: `c8_cover_cache` at the fresh podcast model, a missed
identifier and an over-wide image; shrinking the target size clears the
cache. -/
theorem c8_cover_cache_witness :
    mPodNone.cover_cache.lookup urlW = none ∧
    mPodNone.max_image_side < pixW.width ∧
    (set_max_image_size 10 mPodNone).cover_cache = [] :=
  ⟨rfl, by decide,
    (c8_cover_cache mPodNone urlW pixW pixW 10 rfl (by decide)).2⟩

end Gpodder
